import Mathlib

/- Verification development for the GitHubAdvisor repository-analysis pipeline.

   The definitions below are a shallow embedding of the Python sources
   src/github_agent.py, src/repository_analyzer.py and src/github_api.py.
   Conventions used throughout:
   * Python dictionaries with a fixed key set become Lean structures; a key
     that can be absent at runtime becomes an Option-valued field.
   * Python floats are modelled as exact rationals; the float literals 0.1
     and 0.2 in the scoring code are modelled as the exact decimals 1/10
     and 1/5.
   * Timestamps are integers (seconds); a timedelta `.days` value is the
     floor division of the difference in seconds by 86400.
   * A network call that can raise becomes an `Except ApiError` value that
     is passed to the code consuming the call, so a failing call is an
     explicit `.error` argument. -/

namespace GitHubAdvisor

/-- Outcome of a failing call against the GitHub REST API (an
`httpx.HTTPStatusError` carries the HTTP status of the response). -/
structure ApiError where
  status : Nat
deriving DecidableEq

/-- The enriched repository record: the dictionary assembled by
`RepositoryAnalyzer.analyze_repository` in src/repository_analyzer.py,
plus the `composite_score` key that `_rank_repositories` assigns later
(absent until ranking runs).  Option-valued fields model dictionary keys
that are absent when their metric group resolved to a failure default. -/
structure EnrichedRepository where
  id : Nat
  name : String
  description : Option String
  url : String
  stars : Nat
  forks : Nat
  watchers : Nat
  language : Option String
  contributors : Nat
  open_issues : Nat
  last_updated : Int
  last_updated_days : Int
  size : Nat
  default_branch : String
  license : Option String
  topics : List String
  has_wiki : Bool
  has_pages : Bool
  archived : Bool
  disabled : Bool
  open_prs : Nat
  avg_pr_merge_time : Option ℚ
  pr_merge_rate : ℚ
  total_prs : Option Nat
  open_issues_actual : Nat
  avg_issue_close_time : Option ℚ
  issue_response_activity : Option String
  has_releases : Bool
  latest_release : Option String
  days_since_latest_release : Option Int
  total_releases : Option Nat
  avg_days_between_releases : Option ℚ
  commit_activity : String
  commits_last_month : Nat
  commits_last_year : Option Nat
  composite_score : Option ℚ

/-- Embedding of `GitHubRepositoryAgent._calculate_repository_score`
(src/github_agent.py, lines 236-278).  The Python function accumulates
into a local `score` variable; the sequence of `let score := score + _`
bindings mirrors that accumulation statement by statement.  `repo.get`
calls with a default are modelled by the always-present structure fields:
`stars`, `contributors`, `open_issues` default to 0 and
`last_updated_days` to 365 when the key is missing, which are ordinary
field values, and `avg_pr_merge_time` is Option-valued with `none` for
both a missing key and an explicit None. -/
def calculate_repository_score (repo : EnrichedRepository) : ℚ :=
  let score : ℚ := 0
  -- Stars (normalized, max 1000 points)
  let score := score + min ((repo.stars : ℚ) / 10) 1000
  -- Contributors (normalized, max 500 points)
  let score := score + min ((repo.contributors : ℚ) * 5) 500
  -- Recent activity (max 300 points)
  let score := score +
    (if repo.last_updated_days ≤ 7 then (300 : ℚ)
     else if repo.last_updated_days ≤ 30 then 200
     else if repo.last_updated_days ≤ 90 then 100
     else 0)
  -- PR merge time (max 200 points, favor faster merges)
  let score := score +
    (match repo.avg_pr_merge_time with
     | none => (0 : ℚ)
     | some t =>
       if t ≤ 1 then (200 : ℚ)
       else if t ≤ 3 then 150
       else if t ≤ 7 then 100
       else if t ≤ 14 then 50
       else 0)
  -- Issues to stars ratio (max 100 points, lower is better)
  let score := score +
    (if 0 < repo.stars then
       (if (repo.open_issues : ℚ) / (repo.stars : ℚ) < 1/10 then (100 : ℚ)
        else if (repo.open_issues : ℚ) / (repo.stars : ℚ) < 1/5 then 50
        else 0)
     else 0)
  score

/-- Stars contribution as claim C1 states it: `min(stars / 10, 1000)`. -/
def starsContribution (repo : EnrichedRepository) : ℚ :=
  min ((repo.stars : ℚ) / 10) 1000

/-- Contributor contribution as claim C1 states it:
`min(contributors * 5, 500)`. -/
def contributorsContribution (repo : EnrichedRepository) : ℚ :=
  min ((repo.contributors : ℚ) * 5) 500

/-- Recency contribution as claim C1 states it: 300 if the repository was
updated at most 7 days ago, else 200 if at most 30, else 100 if at most
90, else 0. -/
def recencyContribution (repo : EnrichedRepository) : ℚ :=
  if repo.last_updated_days ≤ 7 then 300
  else if repo.last_updated_days ≤ 30 then 200
  else if repo.last_updated_days ≤ 90 then 100
  else 0

/-- PR-merge-speed contribution as claim C1 states it: when the average
merge time is known, 200 if at most 1 day, 150 if at most 3, 100 if at
most 7, 50 if at most 14, else 0; and 0 when unknown. -/
def mergeSpeedContribution (repo : EnrichedRepository) : ℚ :=
  match repo.avg_pr_merge_time with
  | none => 0
  | some t =>
    if t ≤ 1 then 200
    else if t ≤ 3 then 150
    else if t ≤ 7 then 100
    else if t ≤ 14 then 50
    else 0

/-- Issue-health contribution as claim C1 states it: only when the star
count is positive, 100 if open_issues/stars is below 1/10, 50 if below
1/5, else 0. -/
def issueHealthContribution (repo : EnrichedRepository) : ℚ :=
  if 0 < repo.stars then
    (if (repo.open_issues : ℚ) / (repo.stars : ℚ) < 1/10 then 100
     else if (repo.open_issues : ℚ) / (repo.stars : ℚ) < 1/5 then 50
     else 0)
  else 0

theorem score_eq_sum_of_contributions (repo : EnrichedRepository) :
    calculate_repository_score repo =
      starsContribution repo + contributorsContribution repo +
        recencyContribution repo + mergeSpeedContribution repo +
        issueHealthContribution repo := by
  simp only [calculate_repository_score, starsContribution,
    contributorsContribution, recencyContribution, mergeSpeedContribution,
    issueHealthContribution]
  ring

theorem starsContribution_le (repo : EnrichedRepository) :
    starsContribution repo ≤ 1000 :=
  min_le_right _ _

theorem starsContribution_nonneg (repo : EnrichedRepository) :
    0 ≤ starsContribution repo := by
  unfold starsContribution
  have h1 : (0 : ℚ) ≤ (repo.stars : ℚ) / 10 := by positivity
  exact le_min h1 (by norm_num)

theorem contributorsContribution_le (repo : EnrichedRepository) :
    contributorsContribution repo ≤ 500 :=
  min_le_right _ _

theorem recencyContribution_le (repo : EnrichedRepository) :
    recencyContribution repo ≤ 300 := by
  unfold recencyContribution
  split_ifs <;> norm_num

theorem mergeSpeedContribution_le (repo : EnrichedRepository) :
    mergeSpeedContribution repo ≤ 200 := by
  unfold mergeSpeedContribution
  cases repo.avg_pr_merge_time with
  | none => norm_num
  | some t => simp only []; split_ifs <;> norm_num

theorem issueHealthContribution_le (repo : EnrichedRepository) :
    issueHealthContribution repo ≤ 100 := by
  unfold issueHealthContribution
  split_ifs <;> norm_num

theorem issueHealthContribution_nonneg (repo : EnrichedRepository) :
    0 ≤ issueHealthContribution repo := by
  unfold issueHealthContribution
  split_ifs <;> norm_num

/-- C1: the composite score computed by the scoring engine equals the sum
of the five independently capped contributions described by the spec:
capped stars points, capped contributor points, the recency bucket, the
PR-merge-speed bucket (0 when the average merge time is unknown), and the
issue-health bucket (only when stars are positive). -/
theorem composite_score_is_sum_of_five_capped_contributions
    (repo : EnrichedRepository) :
    calculate_repository_score repo =
      starsContribution repo + contributorsContribution repo +
        recencyContribution repo + mergeSpeedContribution repo +
        issueHealthContribution repo :=
  score_eq_sum_of_contributions repo

/-- C5: for every input record the composite score is at most
2100 = 1000 + 500 + 300 + 200 + 100. -/
theorem composite_score_le_2100 (repo : EnrichedRepository) :
    calculate_repository_score repo ≤ 2100 := by
  rw [score_eq_sum_of_contributions]
  have h1 := starsContribution_le repo
  have h2 := contributorsContribution_le repo
  have h3 := recencyContribution_le repo
  have h4 := mergeSpeedContribution_le repo
  have h5 := issueHealthContribution_le repo
  linarith

theorem starsContribution_mono (repo : EnrichedRepository) (s : Nat)
    (h : repo.stars ≤ s) :
    starsContribution repo ≤ starsContribution { repo with stars := s } := by
  unfold starsContribution
  have hq : (repo.stars : ℚ) ≤ (s : ℚ) := by exact_mod_cast h
  dsimp only
  gcongr

theorem issueHealthContribution_mono (repo : EnrichedRepository) (s : Nat)
    (h : repo.stars ≤ s) :
    issueHealthContribution repo ≤
      issueHealthContribution { repo with stars := s } := by
  unfold issueHealthContribution
  dsimp only
  by_cases h0 : 0 < repo.stars
  · have hs : 0 < s := lt_of_lt_of_le h0 h
    rw [if_pos h0, if_pos hs]
    have hratio : (repo.open_issues : ℚ) / (s : ℚ) ≤
        (repo.open_issues : ℚ) / (repo.stars : ℚ) :=
      div_le_div_of_nonneg_left (by positivity)
        (by exact_mod_cast h0) (by exact_mod_cast h)
    split_ifs <;> linarith
  · rw [if_neg h0]
    split_ifs <;> norm_num

theorem recencyContribution_anti (repo : EnrichedRepository) (d : Int)
    (h : repo.last_updated_days ≤ d) :
    recencyContribution { repo with last_updated_days := d } ≤
      recencyContribution repo := by
  unfold recencyContribution
  dsimp only
  split_ifs <;> first | (exfalso; omega) | norm_num

/-- C6: the composite score is monotone in two fields: raising the star
count (all else fixed) never decreases it, and raising the days-since-
update gap (all else fixed) never increases it. -/
theorem composite_score_monotone_in_stars_and_recency
    (repo : EnrichedRepository) (s : Nat) (d : Int)
    (hs : repo.stars ≤ s) (hd : repo.last_updated_days ≤ d) :
    calculate_repository_score repo ≤
        calculate_repository_score { repo with stars := s }
    ∧ calculate_repository_score { repo with last_updated_days := d } ≤
        calculate_repository_score repo := by
  constructor
  · rw [score_eq_sum_of_contributions, score_eq_sum_of_contributions]
    have h1 := starsContribution_mono repo s hs
    have h2 := issueHealthContribution_mono repo s hs
    have h3 : contributorsContribution { repo with stars := s } =
        contributorsContribution repo := rfl
    have h4 : recencyContribution { repo with stars := s } =
        recencyContribution repo := rfl
    have h5 : mergeSpeedContribution { repo with stars := s } =
        mergeSpeedContribution repo := rfl
    rw [h3, h4, h5]
    linarith
  · rw [score_eq_sum_of_contributions, score_eq_sum_of_contributions]
    have h1 := recencyContribution_anti repo d hd
    have h2 : starsContribution { repo with last_updated_days := d } =
        starsContribution repo := rfl
    have h3 : contributorsContribution { repo with last_updated_days := d } =
        contributorsContribution repo := rfl
    have h4 : mergeSpeedContribution { repo with last_updated_days := d } =
        mergeSpeedContribution repo := rfl
    have h5 : issueHealthContribution { repo with last_updated_days := d } =
        issueHealthContribution repo := rfl
    rw [h2, h3, h4, h5]
    linarith

/-- A concrete enriched record with all metric groups at their failure
defaults; the customized copies below override individual fields. -/
def emptyEnriched : EnrichedRepository where
  id := 0
  name := "sample"
  description := none
  url := ""
  stars := 0
  forks := 0
  watchers := 0
  language := none
  contributors := 0
  open_issues := 0
  last_updated := 0
  last_updated_days := 365
  size := 0
  default_branch := "main"
  license := none
  topics := []
  has_wiki := false
  has_pages := false
  archived := false
  disabled := false
  open_prs := 0
  avg_pr_merge_time := none
  pr_merge_rate := 0
  total_prs := none
  open_issues_actual := 0
  avg_issue_close_time := none
  issue_response_activity := none
  has_releases := false
  latest_release := none
  days_since_latest_release := none
  total_releases := none
  avg_days_between_releases := none
  commit_activity := "low"
  commits_last_month := 0
  commits_last_year := none
  composite_score := none

/-- Concrete input used to witness the monotonicity theorem. -/
def monotonicitySample : EnrichedRepository :=
  { emptyEnriched with
      id := 7, stars := 100, contributors := 10,
      last_updated_days := 3, open_issues := 30 }

/-- Witness for C6 at a concrete record: raising stars from 100 to 2000
and the update gap from 3 to 400 days. -/
theorem composite_score_monotone_witness :
    (monotonicitySample.stars ≤ 2000
      ∧ monotonicitySample.last_updated_days ≤ 400)
    ∧ (calculate_repository_score monotonicitySample ≤
        calculate_repository_score { monotonicitySample with stars := 2000 }
      ∧ calculate_repository_score
            { monotonicitySample with last_updated_days := 400 } ≤
          calculate_repository_score monotonicitySample) :=
  ⟨⟨by decide, by decide⟩,
    composite_score_monotone_in_stars_and_recency monotonicitySample
      2000 400 (by decide) (by decide)⟩

/-- C10: the issue-health bucket of the composite score reads only the raw
`open_issues` field taken from search results, never the PR-excluded
`open_issues_actual` count computed during enrichment: two enriched
records that differ only in `open_issues_actual` get equal scores. -/
theorem score_ignores_pr_excluded_open_issue_count
    (repo : EnrichedRepository) (v w : Nat) :
    calculate_repository_score { repo with open_issues_actual := v } =
      calculate_repository_score { repo with open_issues_actual := w } :=
  rfl

/-- A raw repository item as returned by the GitHub search endpoint: the
fields of the search-result dictionary that the pipeline reads
(src/github_agent.py `_search_repositories` reads `id`;
src/repository_analyzer.py `analyze_repository` reads the rest).
`updated_at` is the parsed timestamp in seconds. -/
structure RepoData where
  id : Nat
  owner_login : String
  name : String
  full_name : String
  description : Option String
  html_url : String
  stargazers_count : Nat
  forks_count : Nat
  watchers_count : Nat
  language : Option String
  open_issues_count : Nat
  updated_at : Int
  size : Nat
  default_branch : String
  license : Option String
  topics : List String
  has_wiki : Bool
  has_pages : Bool
  archived : Bool
  disabled : Bool

/-- One step of the deduplication loop in `_search_repositories`
(src/github_agent.py, lines 185-188): `unique_repos[repo["id"]] = repo`
on a Python dict, which keeps the insertion position of an existing key
and overwrites its value, and appends a fresh key at the end. -/
def upsert (m : List (Nat × RepoData)) (repo : RepoData) :
    List (Nat × RepoData) :=
  if m.any (fun p => p.1 == repo.id) then
    m.map (fun p => if p.1 == repo.id then (p.1, repo) else p)
  else
    m ++ [(repo.id, repo)]

/-- The merged, deduplicated candidate list: the Python loop
`for repo in repositories: unique_repos[repo["id"]] = repo` followed by
`list(unique_repos.values())`. -/
def dedup_by_id (repositories : List RepoData) : List RepoData :=
  (repositories.foldl upsert []).map Prod.snd

/-- The per-term search loop of `_search_repositories` (src/github_agent.py,
lines 171-183).  Each list entry is the outcome of the
`github_api.search_repositories` call for one search term, in term order;
`.ok items` carries the `items` array of the response.  The Python loop
`repositories.extend(results.get("items", []))` runs the calls in order
and has no exception handler, so the first raising call aborts the loop:
returning the first `.error` models exactly that. -/
def gather_search_results :
    List (Except ApiError (List RepoData)) → Except ApiError (List RepoData)
  | [] => .ok []
  | c :: cs =>
    match c with
    | .error e => .error e
    | .ok items =>
      match gather_search_results cs with
      | .error e => .error e
      | .ok rest => .ok (items ++ rest)

/-- Embedding of `GitHubRepositoryAgent._search_repositories`
(src/github_agent.py, lines 167-191): run every term search, concatenate
the items, deduplicate by repository id (last write wins), and keep the
first 30 entries.  Query-string construction and the HTTP transport are
abstracted into the per-term outcomes. -/
def search_repositories (calls : List (Except ApiError (List RepoData))) :
    Except ApiError (List RepoData) :=
  match gather_search_results calls with
  | .error e => .error e
  | .ok repositories => .ok ((dedup_by_id repositories).take 30)

/-- Invariant of the deduplication dictionary: every stored pair is keyed
by the id of its value, and keys are unique, as in a Python dict. -/
def DictWF (m : List (Nat × RepoData)) : Prop :=
  (∀ p ∈ m, p.1 = p.2.id) ∧ (m.map Prod.fst).Nodup

theorem dictWF_nil : DictWF [] := ⟨by simp, by simp⟩

theorem filter_eq_nil_of_no_key (m : List (Nat × RepoData)) (j : Nat)
    (hkey : ∀ p ∈ m, p.1 = p.2.id)
    (hnone : m.any (fun p => p.1 == j) = false) :
    (m.map Prod.snd).filter (fun r => r.id == j) = [] := by
  induction m with
  | nil => rfl
  | cons p m' ih =>
    simp only [List.any_cons, Bool.or_eq_false_iff] at hnone
    have hp : p.1 = p.2.id := hkey p (by simp)
    have hid : (p.2.id == j) = false := by rw [← hp]; exact hnone.1
    simp only [List.map_cons, List.filter_cons, hid]
    simp only [Bool.false_eq_true, if_false]
    exact ih (fun q hq => hkey q (by simp [hq])) hnone.2

theorem upsert_wf (m : List (Nat × RepoData)) (repo : RepoData)
    (hwf : DictWF m) : DictWF (upsert m repo) := by
  obtain ⟨hkey, hnd⟩ := hwf
  unfold upsert
  split_ifs with hmem
  · constructor
    · intro q hq
      simp only [List.mem_map] at hq
      obtain ⟨p, hp, rfl⟩ := hq
      by_cases hc : (p.1 == repo.id) = true
      · simp only [hc, if_true]
        simpa using hc
      · simp only [hc, Bool.false_eq_true, if_false]
        exact hkey p hp
    · have hfst : (m.map (fun p => if p.1 == repo.id then (p.1, repo)
          else p)).map Prod.fst = m.map Prod.fst := by
        rw [List.map_map]
        apply List.map_congr_left
        intro p hp
        by_cases hc : p.1 = repo.id <;> simp [hc]
      rw [hfst]
      exact hnd
  · have hnone : ∀ q ∈ m, (q.1 == repo.id) = false := by
      rw [Bool.not_eq_true, List.any_eq_false] at hmem
      intro q hq
      simpa using hmem q hq
    constructor
    · intro q hq
      rcases List.mem_append.mp hq with h | h
      · exact hkey q h
      · simp only [List.mem_singleton] at h
        subst h
        rfl
    · rw [List.map_append]
      simp only [List.map_cons, List.map_nil]
      rw [List.nodup_append]
      refine ⟨hnd, List.nodup_singleton _, ?_⟩
      intro k hk hk2
      simp only [List.mem_singleton] at hk2
      subst hk2
      simp only [List.mem_map] at hk
      obtain ⟨p, hp, hpk⟩ := hk
      have h2 : p.1 ≠ repo.id := by simpa using hnone p hp
      exact h2 hpk


theorem replace_filter (m : List (Nat × RepoData)) (repo : RepoData)
    (j : Nat) (hkey : ∀ p ∈ m, p.1 = p.2.id)
    (hnd : (m.map Prod.fst).Nodup)
    (hmem : (m.any fun p => p.1 == repo.id) = true) :
    ((m.map (fun p => if p.1 == repo.id then (p.1, repo) else p)).map
        Prod.snd).filter (fun r => r.id == j)
      = if repo.id == j then [repo]
        else (m.map Prod.snd).filter (fun r => r.id == j) := by
  induction m with
  | nil => simp at hmem
  | cons p m' ih =>
    have hkey' : ∀ q ∈ m', q.1 = q.2.id := fun q hq => hkey q (by simp [hq])
    have hnd' : (m'.map Prod.fst).Nodup := (List.nodup_cons.mp hnd).2
    have hp : p.1 = p.2.id := hkey p (by simp)
    by_cases hc : (p.1 == repo.id) = true
    · -- the head pair is replaced; no later pair shares its key
      have hpk : p.1 = repo.id := by simpa using hc
      have hnotin : p.1 ∉ m'.map Prod.fst := (List.nodup_cons.mp hnd).1
      have hnone : ∀ q ∈ m', (q.1 == repo.id) = false := by
        intro q hq
        rw [beq_eq_false_iff_ne]
        intro hqk
        exact hnotin (by
          rw [hpk, ← hqk]
          exact List.mem_map_of_mem Prod.fst hq)
      have hmapid :
          m'.map (fun q => if q.1 == repo.id then (q.1, repo) else q)
            = m' := by
        calc m'.map (fun q => if q.1 == repo.id then (q.1, repo) else q)
            = m'.map id := List.map_congr_left (by
              intro q hq
              have hq2 : q.1 ≠ repo.id := by simpa using hnone q hq
              simp [hq2])
          _ = m' := List.map_id m'
      simp only [List.map_cons, hc, if_true, hmapid, List.filter_cons]
      by_cases hj : (repo.id == j) = true
      · have hj' : repo.id = j := by simpa using hj
        have hfilnil :
            (m'.map Prod.snd).filter (fun r => r.id == j) = [] := by
          apply filter_eq_nil_of_no_key m' j hkey'
          rw [List.any_eq_false]
          intro q hq
          have hq2 := hnone q hq
          rw [beq_eq_false_iff_ne] at hq2
          simp only [beq_iff_eq]
          rw [← hj']
          exact hq2
        simp [hj, hfilnil]
      · have hjf : (repo.id == j) = false := by simpa using hj
        have hpj : (p.2.id == j) = false := by
          rw [← hp, hpk]
          exact hjf
        simp [hjf, hpj]
    · -- the head pair is untouched; the replaced key sits in the tail
      have hcf : (p.1 == repo.id) = false := by simpa using hc
      have hmem' : (m'.any fun q => q.1 == repo.id) = true := by
        simp only [List.any_cons, Bool.or_eq_true] at hmem
        rcases hmem with h | h
        · exact absurd h hc
        · exact h
      have ihh := ih hkey' hnd' hmem'
      simp only [List.map_cons, hcf, Bool.false_eq_true, if_false,
        List.filter_cons]
      by_cases hj : (repo.id == j) = true
      · have hj' : repo.id = j := by simpa using hj
        have hpj : (p.2.id == j) = false := by
          rw [beq_eq_false_iff_ne]
          intro hcontra
          have h1 : p.1 = j := by rw [hp, hcontra]
          rw [beq_eq_false_iff_ne] at hcf
          exact hcf (by rw [h1, hj'])
        rw [hpj]
        simp only [Bool.false_eq_true, if_false]
        rw [ihh, if_pos hj]
      · have hjf : (repo.id == j) = false := by simpa using hj
        rw [ihh, hjf]
        simp only [Bool.false_eq_true, if_false]

theorem upsert_filter (m : List (Nat × RepoData)) (repo : RepoData)
    (j : Nat) (hwf : DictWF m) :
    ((upsert m repo).map Prod.snd).filter (fun r => r.id == j)
      = if repo.id == j then [repo]
        else (m.map Prod.snd).filter (fun r => r.id == j) := by
  obtain ⟨hkey, hnd⟩ := hwf
  unfold upsert
  by_cases hmem : (m.any fun p => p.1 == repo.id) = true
  · rw [if_pos hmem]
    exact replace_filter m repo j hkey hnd hmem
  · rw [if_neg hmem]
    have hnone : ∀ q ∈ m, (q.1 == repo.id) = false := by
      rw [Bool.not_eq_true, List.any_eq_false] at hmem
      intro q hq
      simpa using hmem q hq
    rw [List.map_append, List.filter_append]
    simp only [List.map_cons, List.map_nil, List.filter_cons,
      List.filter_nil]
    by_cases hj : (repo.id == j) = true
    · have hj' : repo.id = j := by simpa using hj
      have hfilnil :
          (m.map Prod.snd).filter (fun r => r.id == j) = [] := by
        apply filter_eq_nil_of_no_key m j hkey
        rw [List.any_eq_false]
        intro q hq
        have hq2 := hnone q hq
        rw [beq_eq_false_iff_ne] at hq2
        simp only [beq_iff_eq]
        rw [← hj']
        exact hq2
      simp [hj, hfilnil]
    · simp [hj]

theorem foldl_upsert_filter (rs : List RepoData) (m : List (Nat × RepoData))
    (j : Nat) (hwf : DictWF m) :
    ((rs.foldl upsert m).map Prod.snd).filter (fun r => r.id == j)
      = ((rs.filter (fun r => r.id == j)).getLast?).elim
          ((m.map Prod.snd).filter (fun r => r.id == j)) (fun r => [r]) := by
  induction rs generalizing m with
  | nil => simp
  | cons r rs' ih =>
    have ih' := ih (upsert m r) (upsert_wf m r hwf)
    simp only [List.foldl_cons]
    rw [ih', upsert_filter m r j hwf]
    by_cases hr : (r.id == j) = true
    · simp only [List.filter_cons, hr, if_true]
      cases hopt : (rs'.filter (fun y => y.id == j)).getLast? with
      | none =>
        have hnil : rs'.filter (fun y => y.id == j) = [] := by
          rwa [List.getLast?_eq_none_iff] at hopt
        rw [hnil]
        rfl
      | some x =>
        have hcons : ((r :: rs'.filter (fun y => y.id == j)).getLast?
            : Option RepoData) = some x := by
          rw [show (r :: rs'.filter (fun y => y.id == j))
              = [r] ++ rs'.filter (fun y => y.id == j) from rfl,
            List.getLast?_append, hopt]
          rfl
        rw [hcons]
        rfl
    · have hrf : (r.id == j) = false := by simpa using hr
      simp only [List.filter_cons, hrf, Bool.false_eq_true, if_false]

theorem gather_ok_all (terms : List (List RepoData)) :
    gather_search_results (terms.map Except.ok) = .ok terms.flatten := by
  induction terms with
  | nil => rfl
  | cons t ts ih =>
    simp only [List.map_cons, gather_search_results, ih, List.flatten_cons]

/-- C4: across the concatenated search results of all terms, the merged
dictionary of the candidate aggregator holds each repository identity at
most once, its record being the last occurrence of that identity in
concatenation order (present exactly when the identity occurs at all),
and the aggregator output is that merged list truncated to at most 30
candidates. -/
theorem dedup_keeps_last_occurrence_and_truncates
    (repositories : List RepoData) (j : Nat)
    (terms : List (List RepoData)) :
    ((dedup_by_id repositories).filter (fun r => r.id == j)
        = ((repositories.filter (fun r => r.id == j)).getLast?).toList)
    ∧ ((dedup_by_id repositories).take 30).length ≤ 30
    ∧ search_repositories (terms.map Except.ok)
        = .ok ((dedup_by_id terms.flatten).take 30) := by
  refine ⟨?_, ?_, ?_⟩
  · have h := foldl_upsert_filter repositories [] j dictWF_nil
    unfold dedup_by_id
    rw [h]
    cases hopt : (repositories.filter (fun r => r.id == j)).getLast? <;>
      simp [hopt]
  · exact List.length_take_le 30 _
  · unfold search_repositories
    rw [gather_ok_all]

/-- A concrete search item used in counterexamples and witnesses. -/
def sampleRepoData : RepoData where
  id := 42
  owner_login := "octocat"
  name := "hello"
  full_name := "octocat/hello"
  description := none
  html_url := "https://example.invalid/octocat/hello"
  stargazers_count := 10
  forks_count := 1
  watchers_count := 10
  language := some "Python"
  open_issues_count := 2
  updated_at := 1700000000
  size := 5
  default_branch := "main"
  license := none
  topics := []
  has_wiki := false
  has_pages := false
  archived := false
  disabled := false

/-- C3 counterexample: one term fails and one succeeds, yet the aggregator
returns the failure instead of the merged results of the succeeding term,
refuting the claim that only an all-terms failure makes it fail. -/
theorem search_partial_failure_counterexample :
    ((Except.ok [sampleRepoData] :
        Except ApiError (List RepoData)).isOk = true)
    ∧ (search_repositories
        [.error ⟨500⟩, .ok [sampleRepoData]]).isOk = false :=
  ⟨rfl, rfl⟩

/-- C3 as amended: the candidate aggregator fails exactly when at least one
term call fails, and the error it reports is the first failing term call
in term order; merged results are produced only when every term call
succeeds, and a failure propagates to the caller (there is no SearchError
recovery producing an empty ranked list and a fallback narrative). -/
theorem search_fails_iff_any_call_fails
    (calls pre post : List (Except ApiError (List RepoData)))
    (e : ApiError) :
    ((search_repositories calls).isOk = true ↔
      ∀ c ∈ calls, c.isOk = true)
    ∧ ((∀ c ∈ pre, c.isOk = true) →
      search_repositories (pre ++ .error e :: post) = .error e) := by
  have gather_ok : ∀ (l : List (Except ApiError (List RepoData))),
      ((gather_search_results l).isOk = true ↔ ∀ c ∈ l, c.isOk = true) := by
    intro l
    induction l with
    | nil => simp [gather_search_results, Except.isOk, Except.toBool]
    | cons c cs ih =>
      cases c with
      | error e' =>
        simp [gather_search_results, Except.isOk, Except.toBool]
      | ok items =>
        cases hcs : gather_search_results cs with
        | error e' =>
          rw [hcs] at ih
          simp only [gather_search_results, hcs]
          simp only [Except.isOk, Except.toBool] at ih ⊢
          simp [← ih]
        | ok rest =>
          rw [hcs] at ih
          simp only [gather_search_results, hcs]
          simp only [Except.isOk, Except.toBool] at ih ⊢
          simp [← ih]
  constructor
  · have h := gather_ok calls
    cases hg : gather_search_results calls with
    | error e' =>
      rw [hg] at h
      simp only [search_repositories, hg]
      simpa using h
    | ok repositories =>
      rw [hg] at h
      simp only [search_repositories, hg]
      simpa using h
  · intro hpre
    induction pre with
    | nil => simp [search_repositories, gather_search_results]
    | cons c cs ih =>
      have hc : c.isOk = true := hpre c (by simp)
      cases c with
      | error e' => simp [Except.isOk, Except.toBool] at hc
      | ok items =>
        have hcs : ∀ x ∈ cs, x.isOk = true := fun x hx =>
          hpre x (by simp [hx])
        have ih' := ih hcs
        have hg : gather_search_results (cs ++ .error e :: post) =
            .error e := by
          by_contra hne
          cases hgg : gather_search_results (cs ++ .error e :: post) with
          | error e' =>
            simp only [search_repositories, hgg] at ih'
            cases ih'
            exact hne hgg
          | ok rest =>
            have : (gather_search_results (cs ++ .error e :: post)).isOk
                = true := by simp [hgg, Except.isOk, Except.toBool]
            rw [gather_ok] at this
            have := this (.error e) (by simp)
            simp [Except.isOk, Except.toBool] at this
        simp only [search_repositories, gather_search_results, List.cons_append,
          List.append_eq, hg]

/-- Witness for the amended C3 at concrete inputs: with a succeeding first
term and a failing second term, the aggregator reports the failure. -/
theorem search_fails_iff_any_call_fails_witness :
    (∀ c ∈ ([.ok [sampleRepoData]] :
        List (Except ApiError (List RepoData))), c.isOk = true)
    ∧ search_repositories
        [.ok [sampleRepoData], .error ⟨500⟩] = .error ⟨500⟩ := by
  refine ⟨by decide, ?_⟩
  have h := (search_fails_iff_any_call_fails
      [.ok [sampleRepoData], .error ⟨500⟩]
      [.ok [sampleRepoData]] [] ⟨500⟩).2 (by decide)
  simpa using h

/-- Stable descending insertion: the incoming element goes in front of the
first element whose key is not larger, so an earlier input element keeps
its position ahead of later elements with an equal key. -/
def insertDesc {α : Type} (key : α → ℚ) (x : α) : List α → List α
  | [] => [x]
  | y :: ys => if key y ≤ key x then x :: y :: ys else y :: insertDesc key x ys

/-- Stable descending insertion sort.  Python `sorted(..., reverse=True)`
is specified as a stable sort in descending key order; every stable
descending sort computes the same list, so insertion sort is an
extensionally faithful model of it. -/
def sortDesc {α : Type} (key : α → ℚ) : List α → List α
  | [] => []
  | x :: xs => insertDesc key x (sortDesc key xs)

theorem insertDesc_perm {α : Type} (key : α → ℚ) (x : α) (l : List α) :
    (insertDesc key x l).Perm (x :: l) := by
  induction l with
  | nil => exact List.Perm.refl _
  | cons y ys ih =>
    unfold insertDesc
    split_ifs with h
    · exact List.Perm.refl _
    · exact (List.Perm.cons y ih).trans (List.Perm.swap x y ys)

theorem sortDesc_perm {α : Type} (key : α → ℚ) (l : List α) :
    (sortDesc key l).Perm l := by
  induction l with
  | nil => exact List.Perm.refl _
  | cons x xs ih =>
    exact (insertDesc_perm key x (sortDesc key xs)).trans (List.Perm.cons x ih)

theorem insertDesc_pairwise {α : Type} (key : α → ℚ) (x : α) (l : List α)
    (h : l.Pairwise (fun a b => key b ≤ key a)) :
    (insertDesc key x l).Pairwise (fun a b => key b ≤ key a) := by
  induction l with
  | nil => simp [insertDesc]
  | cons y ys ih =>
    rw [List.pairwise_cons] at h
    obtain ⟨hy, hys⟩ := h
    unfold insertDesc
    split_ifs with hxy
    · rw [List.pairwise_cons]
      refine ⟨?_, List.pairwise_cons.mpr ⟨hy, hys⟩⟩
      intro z hz
      rcases List.mem_cons.mp hz with rfl | hz
      · exact hxy
      · exact le_trans (hy z hz) hxy
    · rw [List.pairwise_cons]
      constructor
      · intro z hz
        have hz' : z ∈ x :: ys :=
          (insertDesc_perm key x ys).mem_iff.mp hz
        rcases List.mem_cons.mp hz' with rfl | hz'
        · exact le_of_lt (lt_of_not_le hxy)
        · exact hy z hz'
      · exact ih hys

theorem sortDesc_pairwise {α : Type} (key : α → ℚ) (l : List α) :
    (sortDesc key l).Pairwise (fun a b => key b ≤ key a) := by
  induction l with
  | nil => simp [sortDesc]
  | cons x xs ih => exact insertDesc_pairwise key x (sortDesc key xs) ih

theorem sortDesc_eq_self {α : Type} (key : α → ℚ) (l : List α)
    (h : l.Pairwise (fun a b => key b ≤ key a)) :
    sortDesc key l = l := by
  induction l with
  | nil => rfl
  | cons x xs ih =>
    rw [List.pairwise_cons] at h
    obtain ⟨hx, hxs⟩ := h
    show insertDesc key x (sortDesc key xs) = x :: xs
    rw [ih hxs]
    cases xs with
    | nil => rfl
    | cons y ys =>
      unfold insertDesc
      rw [if_pos (hx y (by simp))]

theorem insertDesc_filter_key {α : Type} (key : α → ℚ) (x : α) (l : List α)
    (c : ℚ) :
    (insertDesc key x l).filter (fun r => key r == c)
      = if key x == c
        then x :: l.filter (fun r => key r == c)
        else l.filter (fun r => key r == c) := by
  induction l with
  | nil =>
    by_cases hx : (key x == c) = true <;>
      simp [insertDesc, List.filter, hx]
  | cons y ys ih =>
    unfold insertDesc
    by_cases hxy : key y ≤ key x
    · rw [if_pos hxy, List.filter_cons]
    · rw [if_neg hxy]
      by_cases hx : (key x == c) = true
      · have hxc : key x = c := by simpa using hx
        have hyc : (key y == c) = false := by
          rw [beq_eq_false_iff_ne]
          intro hyc
          exact hxy (le_of_eq (by rw [hyc, hxc]))
        rw [List.filter_cons, hyc]
        simp only [Bool.false_eq_true, if_false]
        rw [ih, if_pos hx, if_pos hx, List.filter_cons, hyc]
        simp only [Bool.false_eq_true, if_false]
      · have hxf : (key x == c) = false := by simpa using hx
        rw [List.filter_cons, ih, hxf]
        simp only [Bool.false_eq_true, if_false]
        rw [List.filter_cons]

theorem sortDesc_filter_key {α : Type} (key : α → ℚ) (l : List α) (c : ℚ) :
    (sortDesc key l).filter (fun r => key r == c)
      = l.filter (fun r => key r == c) := by
  induction l with
  | nil => rfl
  | cons x xs ih =>
    show (insertDesc key x (sortDesc key xs)).filter (fun r => key r == c)
        = (x :: xs).filter (fun r => key r == c)
    rw [insertDesc_filter_key, ih, List.filter_cons]

/-- Score assignment step of `_rank_repositories` (src/github_agent.py,
lines 227-229): `repo["composite_score"] = score`. -/
def assign_score (repo : EnrichedRepository) : EnrichedRepository :=
  { repo with composite_score := some (calculate_repository_score repo) }

/-- Sort key of `_rank_repositories`: `lambda x: x["composite_score"]`.
When the sort runs, every element carries a freshly assigned score, so
the `getD` default of this model is never reached. -/
def sort_key (repo : EnrichedRepository) : ℚ :=
  repo.composite_score.getD 0

/-- Embedding of `GitHubRepositoryAgent._rank_repositories`
(src/github_agent.py, lines 218-234): an empty analyzed list yields an
empty ranked list; otherwise every record receives its composite score
and the list is sorted descending by that score with the stable Python
`sorted(..., reverse=True)`. -/
def rank_repositories : List EnrichedRepository → List EnrichedRepository
  | [] => []
  | repos => sortDesc sort_key (repos.map assign_score)

theorem assign_score_assign (repo : EnrichedRepository) :
    assign_score (assign_score repo) = assign_score repo :=
  rfl

theorem sort_key_assign (repo : EnrichedRepository) :
    sort_key (assign_score repo) = calculate_repository_score repo :=
  rfl

/-- C9: ranking is a stable descending sort by composite score and is
idempotent: the output is descending in the assigned scores, entries with
equal composite scores keep the relative order in which the
score-assigned input listed them, and re-ranking an already-ranked list
(whose scores are unchanged, since scoring ignores the assigned
`composite_score` field) reproduces exactly the same order. -/
theorem ranking_stable_descending_and_idempotent
    (l : List EnrichedRepository) (c : ℚ) :
    (rank_repositories l).Pairwise (fun a b => sort_key b ≤ sort_key a)
    ∧ (rank_repositories l).filter (fun r => r.composite_score == some c)
        = (l.map assign_score).filter (fun r => r.composite_score == some c)
    ∧ rank_repositories (rank_repositories l) = rank_repositories l := by
  cases l with
  | nil => exact ⟨List.Pairwise.nil, rfl, rfl⟩
  | cons x xs =>
    have hrank : rank_repositories (x :: xs)
        = sortDesc sort_key ((x :: xs).map assign_score) := rfl
    refine ⟨?_, ?_, ?_⟩
    · rw [hrank]
      exact sortDesc_pairwise sort_key _
    · rw [hrank]
      have hmemL : ∀ r ∈ (x :: xs).map assign_score,
          ∃ r₀, r = assign_score r₀ := by
        intro r hr
        obtain ⟨r₀, _, rfl⟩ := List.mem_map.mp hr
        exact ⟨r₀, rfl⟩
      have hmemS : ∀ r ∈ sortDesc sort_key ((x :: xs).map assign_score),
          ∃ r₀, r = assign_score r₀ := by
        intro r hr
        exact hmemL r ((sortDesc_perm sort_key _).mem_iff.mp hr)
      have hconvS :
          (sortDesc sort_key ((x :: xs).map assign_score)).filter
              (fun r => r.composite_score == some c)
            = (sortDesc sort_key ((x :: xs).map assign_score)).filter
              (fun r => sort_key r == c) := by
        apply List.filter_congr
        intro r hr
        obtain ⟨r₀, rfl⟩ := hmemS r hr
        rfl
      have hconvL :
          ((x :: xs).map assign_score).filter
              (fun r => r.composite_score == some c)
            = ((x :: xs).map assign_score).filter
              (fun r => sort_key r == c) := by
        apply List.filter_congr
        intro r hr
        obtain ⟨r₀, rfl⟩ := hmemL r hr
        rfl
      rw [hconvS, hconvL, sortDesc_filter_key]
    · cases hm : rank_repositories (x :: xs) with
      | nil =>
        exfalso
        have hlen := (sortDesc_perm sort_key
            ((x :: xs).map assign_score)).length_eq
        rw [hrank] at hm
        rw [hm] at hlen
        simp at hlen
      | cons a as =>
        show rank_repositories (a :: as) = a :: as
        have hmem : ∀ r ∈ a :: as, ∃ r₀, r = assign_score r₀ := by
          intro r hr
          rw [hrank] at hm
          have hr2 : r ∈ sortDesc sort_key ((x :: xs).map assign_score) := by
            rw [hm]
            exact hr
          have : r ∈ (x :: xs).map assign_score :=
            (sortDesc_perm sort_key _).mem_iff.mp hr2
          obtain ⟨r₀, _, rfl⟩ := List.mem_map.mp this
          exact ⟨r₀, rfl⟩
        have hmap : (a :: as).map assign_score = a :: as := by
          calc (a :: as).map assign_score
              = (a :: as).map id := List.map_congr_left (by
                intro r hr
                obtain ⟨r₀, rfl⟩ := hmem r hr
                exact assign_score_assign r₀)
            _ = a :: as := List.map_id _
        show sortDesc sort_key ((a :: as).map assign_score) = a :: as
        rw [hmap]
        apply sortDesc_eq_self
        have hpw := sortDesc_pairwise sort_key ((x :: xs).map assign_score)
        rw [hrank] at hm
        rw [hm] at hpw
        exact hpw

/-- Candidate id 1 of the C2 scenario: stars 100, updated 3 days ago, 10
contributors, no PR data; every unspecified field keeps its default — in
particular the raw open-issue count defaults to 0. -/
def scenarioCandidate1 : EnrichedRepository :=
  { emptyEnriched with
      id := 1, stars := 100, contributors := 10, last_updated_days := 3 }

/-- Candidate id 2 of the C2 scenario: stars 50, updated 200 days ago, 50
contributors; unspecified fields at their defaults. -/
def scenarioCandidate2 : EnrichedRepository :=
  { emptyEnriched with
      id := 2, stars := 50, contributors := 50, last_updated_days := 200 }

theorem scenarioCandidate1_score :
    calculate_repository_score scenarioCandidate1 = 460 := by
  norm_num [calculate_repository_score, scenarioCandidate1, emptyEnriched,
    min_def]

theorem scenarioCandidate2_score :
    calculate_repository_score scenarioCandidate2 = 355 := by
  norm_num [calculate_repository_score, scenarioCandidate2, emptyEnriched,
    min_def]

/-- C2 counterexample: the scoring engine does not give the scenario
candidates the claimed scores 360 and 255.  With the unspecified raw
open-issue count at its default 0 and positive stars, the issue-health
bucket adds 100 to each candidate, so the scores are 460 and 355. -/
theorem scenario_scores_counterexample :
    ¬ (calculate_repository_score scenarioCandidate1 = 360
       ∧ calculate_repository_score scenarioCandidate2 = 255) := by
  intro h
  have h1 := scenarioCandidate1_score
  rw [h.1] at h1
  norm_num at h1

/-- C2 as amended: candidate id 1 scores 460 (10 stars points + 50
contributor points + 300 recency + 100 issue health at the default zero
open-issue count) and candidate id 2 scores 355 (5 + 250 + 0 + 100), and
ranking orders them [id 1, id 2]. -/
theorem scenario_scores_amended :
    calculate_repository_score scenarioCandidate1 = 460
    ∧ calculate_repository_score scenarioCandidate2 = 355
    ∧ (rank_repositories [scenarioCandidate1, scenarioCandidate2]).map
        (fun r => r.id) = [1, 2] := by
  refine ⟨scenarioCandidate1_score, scenarioCandidate2_score, ?_⟩
  have hkey1 : sort_key (assign_score scenarioCandidate1) = 460 :=
    scenarioCandidate1_score
  have hkey2 : sort_key (assign_score scenarioCandidate2) = 355 :=
    scenarioCandidate2_score
  show (sortDesc sort_key
      ([scenarioCandidate1, scenarioCandidate2].map assign_score)).map
        (fun r => r.id) = [1, 2]
  simp only [List.map_cons, List.map_nil, sortDesc, insertDesc]
  rw [if_pos (by rw [hkey1, hkey2]; norm_num)]
  rfl

/-- Lowercasing used by the router: Python `str.lower()` on the request
text, modelled character by character over the text of the string. -/
def lowerChars (s : String) : List Char :=
  s.toList.map Char.toLower

/-- Python substring membership `needle in hay` over a character list. -/
def containsSub (hay : List Char) (needle : String) : Bool :=
  hay.tails.any (fun t => needle.toList.isPrefixOf t)

/-- The fixed keyword set of `_route_request` (src/github_agent.py,
line 69). -/
def diagram_keywords : List String :=
  ["diagram", "draw", "show", "visualize"]

/-- Embedding of `GitHubRepositoryAgent._route_request`
(src/github_agent.py, lines 66-73): lowercase the request text and pick
the diagram branch exactly when one of the fixed keywords occurs in it,
else the search branch. -/
def route_request (user_query : String) : String :=
  if diagram_keywords.any (fun k => containsSub (lowerChars user_query) k)
  then "diagram"
  else "search"

/-- The ordinal-scan index computation of `_generate_diagram`
(src/github_agent.py, lines 78-84): default index 0, 1 when the
lowercased text mentions the second entry, else 2 when it mentions the
third. -/
def diagram_repo_index (user_query : String) : Nat :=
  let q := lowerChars user_query
  if containsSub q "second" || containsSub q "2nd" || containsSub q "2" then 1
  else if containsSub q "third" || containsSub q "3rd" || containsSub q "3"
  then 2
  else 0

/-- Result of the diagram branch: the response text and the optional
diagram path stored into the workflow state. -/
structure DiagramOutcome where
  response : String
  diagram_path : Option String
deriving DecidableEq

/-- The fixed response of `_generate_diagram` when no repository is
available at the computed index. -/
def no_repositories_message : String :=
  "No repositories available for diagram generation. Please search for repositories first."

/-- Embedding of `GitHubRepositoryAgent._generate_diagram`
(src/github_agent.py, lines 75-103).  `gen` abstracts the external
`diagram_generator.generate_diagram` collaborator (`some path` when it
returns a path, `none` when it returns a falsy value).  The Python guard
`not repositories or repo_index >= len(repositories)` is exactly the
negation of `repo_index < len(repositories)`, since an empty list makes
every index out of range. -/
def generate_diagram (gen : EnrichedRepository → Option String)
    (user_query : String)
    (ranked_repositories : List EnrichedRepository) : DiagramOutcome :=
  let repo_index := diagram_repo_index user_query
  if h : repo_index < ranked_repositories.length then
    let selected_repo := ranked_repositories[repo_index]
    match gen selected_repo with
    | some path =>
      ⟨"Generated class diagram for " ++ selected_repo.name, some path⟩
    | none =>
      ⟨"Failed to generate diagram for " ++ selected_repo.name, none⟩
  else
    ⟨no_repositories_message, none⟩

/-- C7: a request whose lowercased text contains a visualization keyword is
routed to the diagram branch; for the text of the scenario the keyword
"show" fires, the ordinal word "second" yields index 1, and with a stored
ranked list of length 1 that index is out of range, so the branch returns
the fixed no-repositories response (and, being a total function, raises
nothing), never consulting the diagram generator. -/
theorem diagram_request_out_of_range_is_handled
    (gen : EnrichedRepository → Option String) (repo : EnrichedRepository) :
    route_request "show me a diagram of the second one" = "diagram"
    ∧ diagram_repo_index "show me a diagram of the second one" = 1
    ∧ generate_diagram gen "show me a diagram of the second one" [repo]
        = ⟨no_repositories_message, none⟩ := by
  refine ⟨rfl, rfl, ?_⟩
  rfl

/-- One contributor entry of the contributors endpoint; only the list
length is consumed. -/
structure Contributor where
  login : String

/-- One pull request as consumed by `_analyze_pull_requests`: its state
and the `created_at`/`merged_at` timestamps (seconds; `none` models a
missing or null key, which is falsy in the Python guards). -/
structure PullRequest where
  state : String
  created_at : Option Int
  merged_at : Option Int

/-- One issue as consumed by `_analyze_issues`: the truthiness of the
`pull_request` marker and the `created_at`/`closed_at` timestamps. -/
structure Issue where
  pull_request : Bool
  created_at : Option Int
  closed_at : Option Int

/-- One release as consumed by `_get_release_info`. -/
structure Release where
  tag_name : String
  published_at : Int

/-- One week of the commit-activity endpoint. -/
structure CommitWeek where
  total : Nat

/-- The pull-request metric group returned by `_analyze_pull_requests`
(src/repository_analyzer.py, lines 80-110).  `total_prs` is absent from
the empty-list and failure dictionaries, hence Option-valued. -/
structure PRMetrics where
  open_prs : Nat
  avg_pr_merge_time : Option ℚ
  pr_merge_rate : ℚ
  total_prs : Option Nat
deriving DecidableEq

/-- The documented failure default of the pull-request group:
`{"open_prs": 0, "avg_pr_merge_time": None, "pr_merge_rate": 0}`. -/
def prMetricsDefault : PRMetrics := ⟨0, none, 0, none⟩

/-- The issue metric group returned by `_analyze_issues`
(src/repository_analyzer.py, lines 112-139); the failure dictionary has
no `issue_response_activity` key. -/
structure IssueMetrics where
  open_issues_actual : Nat
  avg_issue_close_time : Option ℚ
  issue_response_activity : Option String
deriving DecidableEq

/-- The documented failure default of the issue group:
`{"open_issues_actual": 0, "avg_issue_close_time": None}`. -/
def issueMetricsDefault : IssueMetrics := ⟨0, none, none⟩

/-- The release metric group returned by `_get_release_info`
(src/repository_analyzer.py, lines 141-171); only the empty-success
dictionary carries a `release_frequency` key, and the failure dictionary
has only `has_releases` and `latest_release`. -/
structure ReleaseMetrics where
  has_releases : Bool
  latest_release : Option String
  days_since_latest_release : Option Int
  total_releases : Option Nat
  avg_days_between_releases : Option ℚ
  release_frequency : Option String
deriving DecidableEq

/-- The documented failure default of the release group:
`{"has_releases": False, "latest_release": None}`. -/
def releaseMetricsDefault : ReleaseMetrics :=
  ⟨false, none, none, none, none, none⟩

/-- The commit-activity metric group returned by
`_analyze_commit_activity` (src/repository_analyzer.py, lines 173-194);
`commits_last_year` is absent from the empty and failure dictionaries. -/
structure ActivityMetrics where
  commit_activity : String
  commits_last_month : Nat
  commits_last_year : Option Nat
deriving DecidableEq

/-- The documented failure default of the commit-activity group:
`{"commit_activity": "unknown", "commits_last_month": 0}`. -/
def activityMetricsDefault : ActivityMetrics := ⟨"unknown", 0, none⟩

/-- Embedding of `RepositoryAnalyzer._get_contributor_count`
(src/repository_analyzer.py, lines 72-78): the length of the contributor
page, 0 when the call failed. -/
def get_contributor_count (res : Except ApiError (List Contributor)) : Nat :=
  match res with
  | .error _ => 0
  | .ok contributors => contributors.length

/-- Embedding of `RepositoryAnalyzer._analyze_pull_requests`
(src/repository_analyzer.py, lines 80-110).  The merge-time average runs
over the last 50 merged pull requests (`merged_prs[-50:]`) that carry
both timestamps, in days (`total_seconds() / 86400` as an exact
rational). -/
def analyze_pull_requests (res : Except ApiError (List PullRequest)) :
    PRMetrics :=
  match res with
  | .error _ => prMetricsDefault
  | .ok prs =>
    if prs.isEmpty then prMetricsDefault
    else
      let open_prs := (prs.filter (fun pr => pr.state == "open")).length
      let merged_prs := prs.filter (fun pr => pr.merged_at.isSome)
      let merge_times :=
        (merged_prs.drop (merged_prs.length - 50)).filterMap (fun pr =>
          match pr.created_at, pr.merged_at with
          | some created, some merged =>
            some (((merged - created : Int) : ℚ) / 86400)
          | _, _ => none)
      let avg_merge_time : Option ℚ :=
        if merge_times.isEmpty then none
        else some (merge_times.sum / (merge_times.length : ℚ))
      let merge_rate : ℚ := (merged_prs.length : ℚ) / (prs.length : ℚ)
      ⟨open_prs, avg_merge_time, merge_rate, some prs.length⟩

/-- Embedding of `RepositoryAnalyzer._analyze_issues`
(src/repository_analyzer.py, lines 112-139).  The input carries the
responses of the two `get_issues` calls (open page, closed page); a
failure of either call lands in the error branch.  Entries whose
`pull_request` marker is truthy are excluded from both lists. -/
def analyze_issues
    (res : Except ApiError (List Issue × List Issue)) : IssueMetrics :=
  match res with
  | .error _ => issueMetricsDefault
  | .ok (openPage, closedPage) =>
    let open_issues := openPage.filter (fun i => !i.pull_request)
    let closed_issues := closedPage.filter (fun i => !i.pull_request)
    let close_times := closed_issues.filterMap (fun i =>
      match i.created_at, i.closed_at with
      | some created, some closed =>
        some (((closed - created : Int) : ℚ) / 86400)
      | _, _ => none)
    let avg_close_time : Option ℚ :=
      if close_times.isEmpty then none
      else some (close_times.sum / (close_times.length : ℚ))
    ⟨open_issues.length, avg_close_time,
      some (if closed_issues.length > 20 then "high" else "low")⟩

/-- Embedding of `RepositoryAnalyzer._get_release_info`
(src/repository_analyzer.py, lines 141-171).  `now` is the wall-clock
instant of `datetime.now`; a timedelta `.days` is floor division of the
second difference by 86400.  `releases[-1]` for a list with more than one
entry is the last element of the tail. -/
def get_release_info (now : Int)
    (res : Except ApiError (List Release)) : ReleaseMetrics :=
  match res with
  | .error _ => releaseMetricsDefault
  | .ok [] => ⟨false, none, none, none, none, some "none"⟩
  | .ok (latest :: rest) =>
    let days_since_release := (now - latest.published_at).fdiv 86400
    let avg_days_between_releases : Option ℚ :=
      match rest.getLast? with
      | none => none
      | some oldest =>
        let days_span :=
          (latest.published_at - oldest.published_at).fdiv 86400
        some ((days_span : ℚ) / (rest.length : ℚ))
    ⟨true, some latest.tag_name, some days_since_release,
      some (rest.length + 1), avg_days_between_releases, none⟩

/-- Embedding of `RepositoryAnalyzer._analyze_commit_activity`
(src/repository_analyzer.py, lines 173-194): commits of the last 4 weeks
(`activity[-4:]`), total commits of the year, and the bucketed level. -/
def analyze_commit_activity
    (res : Except ApiError (List CommitWeek)) : ActivityMetrics :=
  match res with
  | .error _ => activityMetricsDefault
  | .ok weeks =>
    if weeks.isEmpty then ⟨"low", 0, none⟩
    else
      let recent_commits :=
        ((weeks.drop (weeks.length - 4)).map (fun w => w.total)).sum
      let total_commits := (weeks.map (fun w => w.total)).sum
      let activity_level :=
        if recent_commits > 50 then "high"
        else if recent_commits > 10 then "medium"
        else "low"
      ⟨activity_level, recent_commits, some total_commits⟩

/-- Assembly of the enriched dictionary returned by `analyze_repository`
(src/repository_analyzer.py, lines 40-66): the base fields of the search
item, the five metric groups merged in by `**`-unpacking (their key sets
are disjoint from the base keys and from each other), and no composite
score yet. -/
def assemble_enriched (now : Int) (b : RepoData) (contributor_count : Nat)
    (pr : PRMetrics) (im : IssueMetrics) (rm : ReleaseMetrics)
    (am : ActivityMetrics) : EnrichedRepository where
  id := b.id
  name := b.full_name
  description := b.description
  url := b.html_url
  stars := b.stargazers_count
  forks := b.forks_count
  watchers := b.watchers_count
  language := b.language
  contributors := contributor_count
  open_issues := b.open_issues_count
  last_updated := b.updated_at
  last_updated_days := (now - b.updated_at).fdiv 86400
  size := b.size
  default_branch := b.default_branch
  license := b.license
  topics := b.topics
  has_wiki := b.has_wiki
  has_pages := b.has_pages
  archived := b.archived
  disabled := b.disabled
  open_prs := pr.open_prs
  avg_pr_merge_time := pr.avg_pr_merge_time
  pr_merge_rate := pr.pr_merge_rate
  total_prs := pr.total_prs
  open_issues_actual := im.open_issues_actual
  avg_issue_close_time := im.avg_issue_close_time
  issue_response_activity := im.issue_response_activity
  has_releases := rm.has_releases
  latest_release := rm.latest_release
  days_since_latest_release := rm.days_since_latest_release
  total_releases := rm.total_releases
  avg_days_between_releases := rm.avg_days_between_releases
  commit_activity := am.commit_activity
  commits_last_month := am.commits_last_month
  commits_last_year := am.commits_last_year
  composite_score := none

/-- Embedding of `RepositoryAnalyzer.analyze_repository`
(src/repository_analyzer.py, lines 12-70).  `repo_data` is `none` when
the required base fields are missing or unparseable, which makes the
Python body raise and the outer handler return None (the candidate is
dropped).  The five sub-results are the outcomes of the five parallel
sub-fetch calls; each helper catches its own exceptions, so the
`isinstance(result, Exception)` checks after `asyncio.gather` never fire
for them and the helpers are total functions of their call outcome. -/
def analyze_repository (now : Int) (repo_data : Option RepoData)
    (contrib : Except ApiError (List Contributor))
    (pulls : Except ApiError (List PullRequest))
    (issues : Except ApiError (List Issue × List Issue))
    (releases : Except ApiError (List Release))
    (activity : Except ApiError (List CommitWeek)) :
    Option EnrichedRepository :=
  match repo_data with
  | none => none
  | some b =>
    some (assemble_enriched now b (get_contributor_count contrib)
      (analyze_pull_requests pulls) (analyze_issues issues)
      (get_release_info now releases) (analyze_commit_activity activity))

/-- C8: for a candidate whose base-field extraction succeeds, if exactly
one of the five parallel sub-fetches fails, enrichment still produces a
record in which the failed group is its documented zero/absent default
while the other four groups carry exactly the values computed from their
own successful responses — one conjunct per choice of the failing
sub-fetch. -/
theorem enrichment_isolates_single_sub_fetch_failure
    (now : Int) (b : RepoData) (e : ApiError)
    (contributors : List Contributor) (prs : List PullRequest)
    (issuePages : List Issue × List Issue) (releases : List Release)
    (weeks : List CommitWeek) :
    (analyze_repository now (some b) (.error e) (.ok prs) (.ok issuePages)
        (.ok releases) (.ok weeks)
      = some (assemble_enriched now b 0
          (analyze_pull_requests (.ok prs)) (analyze_issues (.ok issuePages))
          (get_release_info now (.ok releases))
          (analyze_commit_activity (.ok weeks))))
    ∧ (analyze_repository now (some b) (.ok contributors) (.error e)
        (.ok issuePages) (.ok releases) (.ok weeks)
      = some (assemble_enriched now b
          (get_contributor_count (.ok contributors)) prMetricsDefault
          (analyze_issues (.ok issuePages))
          (get_release_info now (.ok releases))
          (analyze_commit_activity (.ok weeks))))
    ∧ (analyze_repository now (some b) (.ok contributors) (.ok prs)
        (.error e) (.ok releases) (.ok weeks)
      = some (assemble_enriched now b
          (get_contributor_count (.ok contributors))
          (analyze_pull_requests (.ok prs)) issueMetricsDefault
          (get_release_info now (.ok releases))
          (analyze_commit_activity (.ok weeks))))
    ∧ (analyze_repository now (some b) (.ok contributors) (.ok prs)
        (.ok issuePages) (.error e) (.ok weeks)
      = some (assemble_enriched now b
          (get_contributor_count (.ok contributors))
          (analyze_pull_requests (.ok prs)) (analyze_issues (.ok issuePages))
          releaseMetricsDefault
          (analyze_commit_activity (.ok weeks))))
    ∧ (analyze_repository now (some b) (.ok contributors) (.ok prs)
        (.ok issuePages) (.ok releases) (.error e)
      = some (assemble_enriched now b
          (get_contributor_count (.ok contributors))
          (analyze_pull_requests (.ok prs)) (analyze_issues (.ok issuePages))
          (get_release_info now (.ok releases)) activityMetricsDefault)) :=
  ⟨rfl, rfl, rfl, rfl, rfl⟩

end GitHubAdvisor
